import Mathlib

/-!
Verification of the audio-upload pipeline in `backend/main.py`.

The pipeline: audio bytes → Whisper STT → language gate → LanguageTool
grammar correction (en/de only) → Piper TTS (en/de/tr, cached voices),
with a text-only JSON short-circuit for unsupported languages and a
uniform 500-error boundary.

External collaborators (Whisper, LanguageTool, Piper, request I/O) are
modelled as parameters of an `Env` record; fallible calls return
`Except String`.  The mutable global voice cache is threaded explicitly
as an association list, and an `Event` trace records which external
services the orchestrator invoked.
-/

namespace Backend

/-- `PIPER_MODELS` from main.py: per-language Piper model paths. -/
def PIPER_MODELS : List (String × String) :=
  [("en", "models/en_US-kristin-medium.onnx"),
   ("de", "models/de_DE-thorsten-medium.onnx"),
   ("tr", "models/tr_TR-fettah-medium.onnx")]

/-- `DEFAULT_LANG` from main.py: fallback language if detection fails. -/
def DEFAULT_LANG : String := "en"

/-- The dictionary Whisper returns from `transcribe`: the code reads the
keys "text" and "language", each possibly absent. -/
structure WhisperResult where
  text : Option String
  language : Option String
deriving Repr, DecidableEq

/-- Python `str.lower()` (character-wise lowering; the language codes
involved are ASCII). -/
def pyLower (s : String) : String :=
  ⟨s.data.map Char.toLower⟩

/-- Python `str.startswith(p)`: the first characters of `s` are exactly
the characters of `p`. -/
def pyStartswith (s p : String) : Bool :=
  s.data.take p.data.length == p.data

/-- Python `str.strip()`: drop whitespace from both ends. -/
def pyStrip (s : String) : String :=
  ⟨((s.data.dropWhile Char.isWhitespace).reverse.dropWhile Char.isWhitespace).reverse⟩

/-- Python `str.isascii()`: every character has code point below 128. -/
def pyIsAscii (s : String) : Bool :=
  s.data.all (fun c => c.toNat < 128)

/-- `stt_with_whisper` (main.py lines 64-77), given the raw Whisper
result: `text = result.get("text", "").strip()` and
`detected_lang = result.get("language", "en")`. -/
def stt_with_whisper (r : WhisperResult) : String × String :=
  (pyStrip (r.text.getD ("")), r.language.getD ("en"))

/-- `detect_lang_for_tts` (main.py lines 80-99): the language gate. -/
def detect_lang_for_tts (detected : String) : Option String :=
  if detected = "" then some DEFAULT_LANG
  else
    let d := pyLower detected
    if pyStartswith d ("en") then some ("en")
    else if pyStartswith d ("de") then some ("de")
    else if pyStartswith d ("tr") then some ("tr")
    else none

/-- Trace of external-service invocations made by the pipeline. -/
inductive Event where
  | stt : Event
  | grammar : String → String → Event
  | load : String → Event
  | synth : String → String → Event
deriving Repr, DecidableEq

/-- The environment of external collaborators: request-body read,
Whisper transcription, the two LanguageTool engines (check + correct
combined, since the code always applies them together), Piper model
loading, and Piper waveform synthesis.  `V` is the opaque type of
`PiperVoice` handles. -/
structure Env (V : Type) where
  readAudio : Except String (List Nat)
  transcribe : List Nat → Except String WhisperResult
  ltEn : String → Except String String
  ltDe : String → Except String String
  loadVoice : String → Except String V
  synthWav : V → String → Except String (List Nat)

/-- `correct_grammar` (main.py lines 102-120): engines run only for the
keys "en" and "de"; every other key (including `None`) is identity.
Also records the grammar-engine invocations it makes. -/
def correct_grammar {V : Type} (env : Env V) (text : String)
    (lang_key : Option String) : Except String String × List Event :=
  if lang_key = some ("en") then (env.ltEn text, [Event.grammar text ("en")])
  else if lang_key = some ("de") then (env.ltDe text, [Event.grammar text ("de")])
  else (Except.ok text, [])

/-- The global `piper_voices` cache, as an association list. -/
abbrev Cache (V : Type) := List (String × V)

/-- Outcome of one `get_piper_voice` call: the result (or the propagated
exception), the cache state after the call, and the model loads the
call attempted, by language key. -/
structure GetOut (V : Type) where
  result : Except String V
  cache : Cache V
  loads : List String
deriving Repr

/-- The key substitution at the top of `get_piper_voice`: keys outside
`PIPER_MODELS` are replaced by `DEFAULT_LANG`. -/
def normKey (lang_key : String) : String :=
  if (PIPER_MODELS.lookup lang_key).isSome then lang_key else DEFAULT_LANG

/-- `get_piper_voice` (main.py lines 123-138): substitute the default
key for unconfigured keys, return a cached voice if present, otherwise
load the model, cache it and return it.  A dictionary miss in
`PIPER_MODELS[lang_key]` would raise a `KeyError`. -/
def get_piper_voice {V : Type} (load : String → Except String V)
    (cache : Cache V) (lang_key : String) : GetOut V :=
  let k := normKey lang_key
  match cache.lookup k with
  | some v => ⟨Except.ok v, cache, []⟩
  | none =>
    match PIPER_MODELS.lookup k with
    | none => ⟨Except.error ("KeyError"), cache, []⟩
    | some model_path =>
      match load model_path with
      | Except.error e => ⟨Except.error e, cache, [k]⟩
      | Except.ok voice => ⟨Except.ok voice, (k, voice) :: cache, [k]⟩

/-- A sequence of `get_piper_voice` calls threading the cache, stopping
at the first propagated exception; returns the final cache and the
concatenated load log. -/
def runGets {V : Type} (load : String → Except String V) :
    Cache V → List String → Except String (Cache V × List String)
  | cache, [] => Except.ok (cache, [])
  | cache, lk :: lks =>
    let g := get_piper_voice load cache lk
    match g.result with
      | Except.error e => Except.error e
      | Except.ok _ =>
        match runGets load g.cache lks with
        | Except.error e => Except.error e
        | Except.ok p => Except.ok (p.1, g.loads ++ p.2)

/-- The WAV framing written by `tts_with_piper` via the `wave` module:
header fields plus the raw frames Piper produced. -/
structure WavFile where
  nchannels : Nat
  sampwidth : Nat
  framerate : Nat
  frames : List Nat
deriving Repr, DecidableEq

/-- Outcome of `tts_with_piper`: WAV (or exception), cache after the
call, and the events (loads and synthesis invocations). -/
structure TtsOut (V : Type) where
  result : Except String WavFile
  cache : Cache V
  events : List Event

/-- `tts_with_piper` (main.py lines 141-157): fetch the (cached) voice,
synthesize, and frame as mono 16-bit 22050 Hz WAV. -/
def tts_with_piper {V : Type} (env : Env V) (cache : Cache V)
    (text : String) (lang_key : String) : TtsOut V :=
  let g := get_piper_voice env.loadVoice cache lang_key
  match g.result with
  | Except.error e => ⟨Except.error e, g.cache, g.loads.map Event.load⟩
  | Except.ok voice =>
    match env.synthWav voice text with
    | Except.error e =>
      ⟨Except.error e, g.cache, g.loads.map Event.load ++ [Event.synth text lang_key]⟩
    | Except.ok frames =>
      ⟨Except.ok ⟨1, 2, 22050, frames⟩, g.cache,
        g.loads.map Event.load ++ [Event.synth text lang_key]⟩

/-- The response shapes `upload_audio` can produce: the text-only JSON
body, the binary audio response with its headers, or the JSON error
body. -/
inductive UploadResponse where
  | textOnly : Nat → String → String → Option String → Bool → UploadResponse
  | audio : WavFile → String → List (String × String) → UploadResponse
  | errorResp : Nat → String → UploadResponse
deriving Repr, DecidableEq

/-- Result of one request: the response, the voice cache afterwards,
and the trace of external-service invocations. -/
structure PipelineOut (V : Type) where
  response : UploadResponse
  cache : Cache V
  events : List Event

/-- `upload_audio` (main.py lines 164-229): the orchestrator.  Reads
the upload, transcribes, gates the language (short-circuiting to the
text-only JSON response when unsupported), corrects grammar,
synthesizes, and attaches the `X-Detected-Lang` header plus the
`X-Corrected-Text` header when the corrected text is pure ASCII; any
exception anywhere becomes a 500 JSON error response. -/
def upload_audio {V : Type} (env : Env V) (cache : Cache V) : PipelineOut V :=
  match env.readAudio with
  | Except.error e => ⟨UploadResponse.errorResp 500 e, cache, []⟩
  | Except.ok audio_bytes =>
    match env.transcribe audio_bytes with
    | Except.error e => ⟨UploadResponse.errorResp 500 e, cache, [Event.stt]⟩
    | Except.ok r =>
      let original_text := (stt_with_whisper r).1
      let detected_lang_raw := (stt_with_whisper r).2
      match detect_lang_for_tts detected_lang_raw with
      | none =>
        ⟨UploadResponse.textOnly 200 original_text detected_lang_raw none false,
          cache, [Event.stt]⟩
      | some tts_lang =>
        let g := correct_grammar env original_text (some tts_lang)
        match g.1 with
        | Except.error e => ⟨UploadResponse.errorResp 500 e, cache, Event.stt :: g.2⟩
        | Except.ok corrected_text =>
          let t := tts_with_piper env cache corrected_text tts_lang
          match t.result with
          | Except.error e =>
            ⟨UploadResponse.errorResp 500 e, t.cache, Event.stt :: (g.2 ++ t.events)⟩
          | Except.ok wav =>
            let headers :=
              if pyIsAscii corrected_text then
                [(("X-Detected-Lang"), tts_lang), (("X-Corrected-Text"), corrected_text)]
              else [(("X-Detected-Lang"), tts_lang)]
            ⟨UploadResponse.audio wav ("audio/wav") headers, t.cache,
              Event.stt :: (g.2 ++ t.events)⟩

/-! ### Concrete environments used to instantiate the theorems -/

/-- Environment whose transcription detects Portuguese. -/
def envPT : Env Unit :=
  ⟨Except.ok [0], fun _ => Except.ok ⟨some (" hallo "), some ("pt")⟩,
   fun t => Except.ok t, fun t => Except.ok t,
   fun _ => Except.ok (), fun _ _ => Except.ok [0]⟩

/-- Environment for the English full path, with a stub correction
engine rewriting to a fixed corrected sentence. -/
def envEN : Env Unit :=
  ⟨Except.ok [0], fun _ => Except.ok ⟨some ("i has a apple"), some ("en")⟩,
   fun _ => Except.ok ("I have an apple"), fun t => Except.ok t,
   fun _ => Except.ok (), fun _ _ => Except.ok [3]⟩

/-- Environment whose correction engine produces non-ASCII text. -/
def envAring : Env Unit :=
  ⟨Except.ok [0], fun _ => Except.ok ⟨some ("x"), some ("en")⟩,
   fun _ => Except.ok ("Ångström"), fun t => Except.ok t,
   fun _ => Except.ok (), fun _ _ => Except.ok [3]⟩

/-- Environment whose upload read fails. -/
def envBoom : Env Unit :=
  ⟨Except.error ("boom"), fun _ => Except.ok ⟨none, none⟩,
   fun t => Except.ok t, fun t => Except.ok t,
   fun _ => Except.ok (), fun _ _ => Except.ok []⟩

/-- Environment with identity engines and empty transcription result. -/
def envId : Env Unit :=
  ⟨Except.ok [], fun _ => Except.ok ⟨none, none⟩,
   fun t => Except.ok t, fun t => Except.ok t,
   fun _ => Except.ok (), fun _ _ => Except.ok []⟩

/-! ### Helper lemmas -/

theorem dropWhile_head?_false {p : Char → Bool} :
    ∀ (l : List Char) (c : Char), (l.dropWhile p).head? = some c → p c = false := by
  intro l
  induction l with
  | nil => intro c h; simp [List.dropWhile] at h
  | cons a l ih =>
    intro c h
    rw [List.dropWhile_cons] at h
    by_cases hp : p a = true
    · rw [if_pos hp] at h
      exact ih c h
    · rw [if_neg hp] at h
      simp only [List.head?_cons, Option.some.injEq] at h
      subst h
      exact Bool.eq_false_iff.mpr hp

theorem dropWhile_getLast?_of_ne_nil {p : Char → Bool} :
    ∀ (l : List Char), l.dropWhile p ≠ [] → (l.dropWhile p).getLast? = l.getLast? := by
  intro l
  induction l with
  | nil => intro h; simp [List.dropWhile] at h
  | cons a l ih =>
    intro h
    rw [List.dropWhile_cons] at h ⊢
    by_cases hp : p a = true
    · rw [if_pos hp] at h ⊢
      have hl : l ≠ [] := by
        intro he
        subst he
        simp [List.dropWhile] at h
      obtain ⟨b, l2, rfl⟩ := List.exists_cons_of_ne_nil hl
      rw [List.getLast?_cons_cons]
      exact ih h
    · rw [if_neg hp]

theorem pyStrip_head?_not_white (s : String) (c : Char)
    (h : (pyStrip s).data.head? = some c) : c.isWhitespace = false := by
  unfold pyStrip at h
  rw [List.head?_reverse] at h
  have hne : (s.data.dropWhile Char.isWhitespace).reverse.dropWhile Char.isWhitespace ≠ [] := by
    intro he
    rw [he] at h
    simp at h
  rw [dropWhile_getLast?_of_ne_nil _ hne, List.getLast?_reverse] at h
  exact dropWhile_head?_false _ c h

theorem pyStrip_getLast?_not_white (s : String) (c : Char)
    (h : (pyStrip s).data.getLast? = some c) : c.isWhitespace = false := by
  unfold pyStrip at h
  rw [List.getLast?_reverse] at h
  exact dropWhile_head?_false _ c h

theorem correct_grammar_events_text {V : Type} (env : Env V) (text : String)
    (k : Option String) :
    ∀ t l, Event.grammar t l ∈ (correct_grammar env text k).2 → t = text := by
  intro t l h
  unfold correct_grammar at h
  by_cases h1 : k = some ("en")
  · rw [if_pos h1] at h
    simp at h
    exact h.1
  · rw [if_neg h1] at h
    by_cases h2 : k = some ("de")
    · rw [if_pos h2] at h
      simp at h
      exact h.1
    · rw [if_neg h2] at h
      simp at h

theorem tts_no_grammar_events {V : Type} (env : Env V) (cache : Cache V)
    (text : String) (lk : String) :
    ∀ t l, Event.grammar t l ∉ (tts_with_piper env cache text lk).events := by
  intro t l h
  simp only [tts_with_piper] at h
  split at h
  · simp at h
  · split at h <;> simp at h

theorem upload_audio_read_error {V : Type} (env : Env V) (cache : Cache V)
    (e : String) (h : env.readAudio = Except.error e) :
    upload_audio env cache = ⟨UploadResponse.errorResp 500 e, cache, []⟩ := by
  simp only [upload_audio, h]

theorem upload_audio_stt_error {V : Type} (env : Env V) (cache : Cache V)
    (ab : List Nat) (e : String)
    (h1 : env.readAudio = Except.ok ab) (h2 : env.transcribe ab = Except.error e) :
    upload_audio env cache = ⟨UploadResponse.errorResp 500 e, cache, [Event.stt]⟩ := by
  simp only [upload_audio, h1, h2]

/-- Branch-by-branch characterization of `upload_audio` once the upload
read and the transcription have succeeded. -/
theorem upload_audio_spec {V : Type} (env : Env V) (cache : Cache V)
    (ab : List Nat) (r : WhisperResult)
    (h1 : env.readAudio = Except.ok ab) (h2 : env.transcribe ab = Except.ok r) :
    (detect_lang_for_tts (stt_with_whisper r).2 = none →
      upload_audio env cache =
        ⟨UploadResponse.textOnly 200 (stt_with_whisper r).1 (stt_with_whisper r).2 none false,
          cache, [Event.stt]⟩) ∧
    (∀ lang, detect_lang_for_tts (stt_with_whisper r).2 = some lang →
      (∀ e, (correct_grammar env (stt_with_whisper r).1 (some lang)).1 = Except.error e →
        upload_audio env cache =
          ⟨UploadResponse.errorResp 500 e, cache,
            Event.stt :: (correct_grammar env (stt_with_whisper r).1 (some lang)).2⟩) ∧
      (∀ ct, (correct_grammar env (stt_with_whisper r).1 (some lang)).1 = Except.ok ct →
        (∀ e, (tts_with_piper env cache ct lang).result = Except.error e →
          upload_audio env cache =
            ⟨UploadResponse.errorResp 500 e, (tts_with_piper env cache ct lang).cache,
              Event.stt :: ((correct_grammar env (stt_with_whisper r).1 (some lang)).2 ++
                (tts_with_piper env cache ct lang).events)⟩) ∧
        (∀ wav, (tts_with_piper env cache ct lang).result = Except.ok wav →
          upload_audio env cache =
            ⟨UploadResponse.audio wav ("audio/wav")
                (if pyIsAscii ct then
                  [(("X-Detected-Lang"), lang), (("X-Corrected-Text"), ct)]
                 else [(("X-Detected-Lang"), lang)]),
              (tts_with_piper env cache ct lang).cache,
              Event.stt :: ((correct_grammar env (stt_with_whisper r).1 (some lang)).2 ++
                (tts_with_piper env cache ct lang).events)⟩))) := by
  refine ⟨?_, ?_⟩
  · intro hdet
    simp only [upload_audio, h1, h2, hdet]
  · intro lang hdet
    refine ⟨?_, ?_⟩
    · intro e hcg
      simp only [upload_audio, h1, h2, hdet, hcg]
    · intro ct hcg
      refine ⟨?_, ?_⟩
      · intro e htts
        simp only [upload_audio, h1, h2, hdet, hcg, htts]
      · intro wav htts
        simp only [upload_audio, h1, h2, hdet, hcg, htts]

/-! ### Claims -/

theorem tts_result_wav_format {V : Type} (env : Env V) (cache : Cache V)
    (text lk : String) (wav : WavFile)
    (h : (tts_with_piper env cache text lk).result = Except.ok wav) :
    wav.nchannels = 1 ∧ wav.sampwidth = 2 ∧ wav.framerate = 22050 := by
  simp only [tts_with_piper] at h
  split at h
  · simp at h
  · split at h
    · simp at h
    · simp only [Except.ok.injEq] at h
      rw [← h]
      exact ⟨rfl, rfl, rfl⟩

theorem tts_ok_synth_event {V : Type} (env : Env V) (cache : Cache V)
    (text lk : String) (wav : WavFile)
    (h : (tts_with_piper env cache text lk).result = Except.ok wav) :
    Event.synth text lk ∈ (tts_with_piper env cache text lk).events := by
  simp only [tts_with_piper] at h ⊢
  split at h
  · simp at h
  · split at h <;> simp

/-- C1: for a request whose raw detected language resolves to no
supported key, the orchestrator calls neither the grammar corrector
nor the synthesis service and returns the 200 text-only JSON response
with original_text, detected_lang_raw, normalized_lang = null,
tts_available = false, leaving the voice cache untouched. -/
theorem C1_unsupported_short_circuit {V : Type} (env : Env V) (cache : Cache V)
    (ab : List Nat) (r : WhisperResult)
    (h1 : env.readAudio = Except.ok ab) (h2 : env.transcribe ab = Except.ok r)
    (h3 : detect_lang_for_tts (stt_with_whisper r).2 = none) :
    upload_audio env cache =
      ⟨UploadResponse.textOnly 200 (stt_with_whisper r).1 (stt_with_whisper r).2 none false,
        cache, [Event.stt]⟩ ∧
    (∀ t l, Event.grammar t l ∉ (upload_audio env cache).events) ∧
    (∀ t l, Event.synth t l ∉ (upload_audio env cache).events) ∧
    (∀ k, Event.load k ∉ (upload_audio env cache).events) := by
  have hmain := (upload_audio_spec env cache ab r h1 h2).1 h3
  refine ⟨hmain, ?_, ?_, ?_⟩
  · intro t l h
    rw [hmain] at h
    simp at h
  · intro t l h
    rw [hmain] at h
    simp at h
  · intro k h
    rw [hmain] at h
    simp at h

/-- Witness for C1: raw language "pt" short-circuits to the text-only
JSON response. -/
theorem C1_unsupported_witness :
    upload_audio envPT ([] : Cache Unit) =
      ⟨UploadResponse.textOnly 200 ("hallo") ("pt") none false, [], [Event.stt]⟩ :=
  (C1_unsupported_short_circuit envPT [] [0] ⟨some (" hallo "), some ("pt")⟩
    rfl rfl (by decide)).1

/-- C3: on a supported language the orchestrator synthesizes the
grammar-corrected text (the synthesis invocation carries exactly the
corrected text), the body is WAV framed as 1 channel, 16-bit samples
(sample width 2), 22050 Hz, served as "audio/wav"; the X-Detected-Lang
header is the resolved key and any X-Corrected-Text header equals the
corrected text. -/
theorem C3_full_path {V : Type} (env : Env V) (cache : Cache V)
    (ab : List Nat) (r : WhisperResult) (lang ct : String) (wav : WavFile)
    (h1 : env.readAudio = Except.ok ab) (h2 : env.transcribe ab = Except.ok r)
    (h3 : detect_lang_for_tts (stt_with_whisper r).2 = some lang)
    (h4 : (correct_grammar env (stt_with_whisper r).1 (some lang)).1 = Except.ok ct)
    (h5 : (tts_with_piper env cache ct lang).result = Except.ok wav) :
    (∃ hs, (upload_audio env cache).response = UploadResponse.audio wav ("audio/wav") hs ∧
      hs.head? = some ((("X-Detected-Lang"), lang)) ∧
      (∀ v, (("X-Corrected-Text"), v) ∈ hs → v = ct)) ∧
    Event.synth ct lang ∈ (upload_audio env cache).events ∧
    wav.nchannels = 1 ∧ wav.sampwidth = 2 ∧ wav.framerate = 22050 := by
  have hmain := (((upload_audio_spec env cache ab r h1 h2).2 lang h3).2 ct h4).2 wav h5
  refine ⟨⟨if pyIsAscii ct then
      [(("X-Detected-Lang"), lang), (("X-Corrected-Text"), ct)]
    else [(("X-Detected-Lang"), lang)], ?_, ?_, ?_⟩, ?_, ?_⟩
  · rw [hmain]
  · cases hA : pyIsAscii ct <;> simp [hA]
  · intro v hv
    cases hA : pyIsAscii ct <;> rw [hA] at hv <;> simp at hv
    exact hv
  · have hsynth := tts_ok_synth_event env cache ct lang wav h5
    rw [hmain]
    simp only [List.mem_cons, List.mem_append]
    exact Or.inr (Or.inr hsynth)
  · exact tts_result_wav_format env cache ct lang wav h5

/-- Witness for C3: text "i has a apple" detected as "en" with a stub
engine rewriting to "I have an apple" synthesizes the corrected text. -/
theorem C3_full_path_witness :
    Event.synth ("I have an apple") ("en") ∈ (upload_audio envEN ([] : Cache Unit)).events :=
  (C3_full_path envEN [] [0] ⟨some ("i has a apple"), some ("en")⟩ ("en")
    ("I have an apple") ⟨1, 2, 22050, [3]⟩ rfl rfl (by decide) rfl rfl).2.1

/-- C4: a fault at any stage (upload read, transcription, grammar
correction, synthesis) becomes a status-500 response whose error field
is the fault message; a failing request never yields the binary audio
shape. -/
theorem C4_error_boundary {V : Type} (env : Env V) (cache : Cache V) :
    (∀ e, env.readAudio = Except.error e →
      (upload_audio env cache).response = UploadResponse.errorResp 500 e) ∧
    (∀ ab e, env.readAudio = Except.ok ab → env.transcribe ab = Except.error e →
      (upload_audio env cache).response = UploadResponse.errorResp 500 e) ∧
    (∀ ab r lang e, env.readAudio = Except.ok ab → env.transcribe ab = Except.ok r →
      detect_lang_for_tts (stt_with_whisper r).2 = some lang →
      (correct_grammar env (stt_with_whisper r).1 (some lang)).1 = Except.error e →
      (upload_audio env cache).response = UploadResponse.errorResp 500 e) ∧
    (∀ ab r lang ct e, env.readAudio = Except.ok ab → env.transcribe ab = Except.ok r →
      detect_lang_for_tts (stt_with_whisper r).2 = some lang →
      (correct_grammar env (stt_with_whisper r).1 (some lang)).1 = Except.ok ct →
      (tts_with_piper env cache ct lang).result = Except.error e →
      (upload_audio env cache).response = UploadResponse.errorResp 500 e) ∧
    (∀ st e wav mt hs, (upload_audio env cache).response = UploadResponse.errorResp st e →
      (upload_audio env cache).response ≠ UploadResponse.audio wav mt hs) := by
  refine ⟨?_, ?_, ?_, ?_, ?_⟩
  · intro e h
    rw [upload_audio_read_error env cache e h]
  · intro ab e ha hb
    rw [upload_audio_stt_error env cache ab e ha hb]
  · intro ab r lang e ha hb hdet hcg
    rw [((upload_audio_spec env cache ab r ha hb).2 lang hdet).1 e hcg]
  · intro ab r lang ct e ha hb hdet hcg htts
    rw [(((upload_audio_spec env cache ab r ha hb).2 lang hdet).2 ct hcg).1 e htts]
  · intro st e wav mt hs h hc
    rw [h] at hc
    exact UploadResponse.noConfusion hc

/-- Witness for C4: a failing upload read yields the 500 error body. -/
theorem C4_error_boundary_witness :
    (upload_audio envBoom ([] : Cache Unit)).response = UploadResponse.errorResp 500 ("boom") :=
  (C4_error_boundary envBoom []).1 ("boom") rfl

/-- C5: on the supported path the X-Corrected-Text header is present
iff the corrected text is pure ASCII; with non-ASCII corrected text the
binary audio response is still produced, just without that header. -/
theorem C5_ascii_side_channel {V : Type} (env : Env V) (cache : Cache V)
    (ab : List Nat) (r : WhisperResult) (lang ct : String) (wav : WavFile)
    (h1 : env.readAudio = Except.ok ab) (h2 : env.transcribe ab = Except.ok r)
    (h3 : detect_lang_for_tts (stt_with_whisper r).2 = some lang)
    (h4 : (correct_grammar env (stt_with_whisper r).1 (some lang)).1 = Except.ok ct)
    (h5 : (tts_with_piper env cache ct lang).result = Except.ok wav) :
    ∃ hs, (upload_audio env cache).response = UploadResponse.audio wav ("audio/wav") hs ∧
      ((∃ v, (("X-Corrected-Text"), v) ∈ hs) ↔ pyIsAscii ct = true) ∧
      (pyIsAscii ct = true → (("X-Corrected-Text"), ct) ∈ hs) ∧
      (pyIsAscii ct = false → ∀ v, (("X-Corrected-Text"), v) ∉ hs) := by
  have hmain := (((upload_audio_spec env cache ab r h1 h2).2 lang h3).2 ct h4).2 wav h5
  refine ⟨if pyIsAscii ct then
      [(("X-Detected-Lang"), lang), (("X-Corrected-Text"), ct)]
    else [(("X-Detected-Lang"), lang)], ?_, ?_, ?_, ?_⟩
  · rw [hmain]
  · constructor
    · rintro ⟨v, hv⟩
      by_contra hA
      rw [Bool.not_eq_true] at hA
      rw [hA] at hv
      simp at hv
    · intro hA
      exact ⟨ct, by simp [hA]⟩
  · intro hA
    simp [hA]
  · intro hA v hv
    rw [hA] at hv
    simp at hv

/-- Witness for C5: corrected text "Ångström" still yields the binary
response, with no X-Corrected-Text header. -/
theorem C5_ascii_side_channel_witness :
    ∃ hs, (upload_audio envAring ([] : Cache Unit)).response =
        UploadResponse.audio ⟨1, 2, 22050, [3]⟩ ("audio/wav") hs ∧
      (∀ v, (("X-Corrected-Text"), v) ∉ hs) := by
  obtain ⟨hs, hresp, hiff, hpos, hneg⟩ :=
    C5_ascii_side_channel envAring [] [0] ⟨some ("x"), some ("en")⟩ ("en")
      ("Ångström") ⟨1, 2, 22050, [3]⟩ rfl rfl (by decide) rfl rfl
  exact ⟨hs, hresp, hneg (by decide)⟩

/-- C10: the transcription wrapper strips the raw service text, so the
text entering the pipeline (the original_text response field and the
text handed to grammar correction) has no leading or trailing
whitespace, and a missing language field defaults to raw language
"en". -/
theorem C10_stt_normalization (r : WhisperResult) :
    (stt_with_whisper r).1 = pyStrip (r.text.getD ("")) ∧
    (∀ c, (stt_with_whisper r).1.data.head? = some c → c.isWhitespace = false) ∧
    (∀ c, (stt_with_whisper r).1.data.getLast? = some c → c.isWhitespace = false) ∧
    (r.language = none → (stt_with_whisper r).2 = ("en")) ∧
    (∀ (V : Type) (env : Env V) (cache : Cache V) (ab : List Nat),
      env.readAudio = Except.ok ab → env.transcribe ab = Except.ok r →
      (∀ ot dl nl ta,
        (upload_audio env cache).response = UploadResponse.textOnly 200 ot dl nl ta →
          ot = pyStrip (r.text.getD (""))) ∧
      (∀ t l, Event.grammar t l ∈ (upload_audio env cache).events →
        t = pyStrip (r.text.getD ("")))) := by
  refine ⟨rfl, ?_, ?_, ?_, ?_⟩
  · intro c h
    exact pyStrip_head?_not_white _ c h
  · intro c h
    exact pyStrip_getLast?_not_white _ c h
  · intro h
    simp [stt_with_whisper, h]
  · intro V env cache ab h1 h2
    have hspec := upload_audio_spec env cache ab r h1 h2
    cases hdet : detect_lang_for_tts (stt_with_whisper r).2 with
    | none =>
      have hmain := hspec.1 hdet
      constructor
      · intro ot dl nl ta hresp
        rw [hmain] at hresp
        simp only [UploadResponse.textOnly.injEq] at hresp
        exact hresp.2.1.symm
      · intro t l h
        rw [hmain] at h
        simp at h
    | some lang =>
      have hs2 := hspec.2 lang hdet
      cases hcg : (correct_grammar env (stt_with_whisper r).1 (some lang)).1 with
      | error e =>
        have hmain := hs2.1 e hcg
        constructor
        · intro ot dl nl ta hresp
          rw [hmain] at hresp
          simp at hresp
        · intro t l h
          rw [hmain] at h
          simp at h
          exact correct_grammar_events_text env _ (some lang) t l h
      | ok ct =>
        cases htts : (tts_with_piper env cache ct lang).result with
        | error e =>
          have hmain := (hs2.2 ct hcg).1 e htts
          constructor
          · intro ot dl nl ta hresp
            rw [hmain] at hresp
            simp at hresp
          · intro t l h
            rw [hmain] at h
            simp at h
            rcases h with h | h
            · exact correct_grammar_events_text env _ (some lang) t l h
            · exact absurd h (tts_no_grammar_events env cache ct lang t l)
        | ok wav =>
          have hmain := (hs2.2 ct hcg).2 wav htts
          constructor
          · intro ot dl nl ta hresp
            rw [hmain] at hresp
            simp at hresp
          · intro t l h
            rw [hmain] at h
            simp at h
            rcases h with h | h
            · exact correct_grammar_events_text env _ (some lang) t l h
            · exact absurd h (tts_no_grammar_events env cache ct lang t l)

/-- Witness for C10: a missing language field yields raw language
"en", and the stripped text of "  hi  " is "hi". -/
theorem C10_stt_normalization_witness :
    (stt_with_whisper ⟨some ("  hi  "), none⟩).2 = ("en") :=
  (C10_stt_normalization ⟨some ("  hi  "), none⟩).2.2.2.1 rfl

/-- C2: the language gate `detect_lang_for_tts` is a total, pure,
deterministic function of the raw code: the empty string resolves to
the configured default key, "EN-us" to the English key, "pt-BR" to
`none`, "deu" to the German key; matching is case-insensitive matching
on leading characters only, and every non-empty non-matching code maps
to `none`. -/
theorem C2_language_gate :
    detect_lang_for_tts ("") = some DEFAULT_LANG ∧
    detect_lang_for_tts ("EN-us") = some ("en") ∧
    detect_lang_for_tts ("pt-BR") = none ∧
    detect_lang_for_tts ("deu") = some ("de") ∧
    (∀ c : String, c ≠ "" → pyStartswith (pyLower c) ("en") = true →
      detect_lang_for_tts c = some ("en")) ∧
    (∀ c : String, c ≠ "" → pyStartswith (pyLower c) ("en") = false →
      pyStartswith (pyLower c) ("de") = false →
      pyStartswith (pyLower c) ("tr") = false →
      detect_lang_for_tts c = none) := by
  refine ⟨by decide, by decide, by decide, by decide, ?_, ?_⟩
  · intro c hne hen
    simp [detect_lang_for_tts, hne, hen]
  · intro c hne hen hde htr
    simp [detect_lang_for_tts, hne, hen, hde, htr]

/-- Witness for C2: the non-matching code "hy" resolves to `none`. -/
theorem C2_language_gate_witness : detect_lang_for_tts ("hy") = none :=
  C2_language_gate.2.2.2.2.2 ("hy") (by decide) (by decide) (by decide) (by decide)

/-- C6: the grammar corrector is the identity on text for the absent
key and for every key other than the two with configured engines
("en", "de"); it invokes no engine there. -/
theorem C6_grammar_identity {V : Type} (env : Env V) (t : String)
    (k : Option String) (hk1 : k ≠ some ("en")) (hk2 : k ≠ some ("de")) :
    correct_grammar env t k = (Except.ok t, []) := by
  simp [correct_grammar, hk1, hk2]

/-- Witness for C6: identity on the absent key and on "tr". -/
theorem C6_grammar_identity_witness :
    correct_grammar envId ("hello") none = (Except.ok ("hello"), []) ∧
    correct_grammar envId ("hello") (some ("tr")) = (Except.ok ("hello"), []) :=
  ⟨C6_grammar_identity envId ("hello") none (by decide) (by decide),
   C6_grammar_identity envId ("hello") (some ("tr")) (by decide) (by decide)⟩

/-! ### Voice-cache lemmas -/

theorem normKey_isSome (k : String) :
    (PIPER_MODELS.lookup (normKey k)).isSome = true := by
  unfold normKey
  by_cases h : (PIPER_MODELS.lookup k).isSome = true
  · rw [if_pos h]
    exact h
  · rw [if_neg h]
    decide

theorem get_cached_hit {V : Type} (load : String → Except String V)
    (cache : Cache V) (lk : String) (v : V)
    (h : cache.lookup (normKey lk) = some v) :
    get_piper_voice load cache lk = ⟨Except.ok v, cache, []⟩ := by
  simp [get_piper_voice, h]

theorem get_ok_lookup {V : Type} (load : String → Except String V)
    (cache : Cache V) (lk : String) (v : V)
    (h : (get_piper_voice load cache lk).result = Except.ok v) :
    (get_piper_voice load cache lk).cache.lookup (normKey lk) = some v := by
  rcases hc : List.lookup (normKey lk) cache with _ | v2
  · rcases hp : List.lookup (normKey lk) PIPER_MODELS with _ | mp
    · simp [get_piper_voice, hc, hp] at h
    · rcases hl : load mp with e | w
      · simp [get_piper_voice, hc, hp, hl] at h
      · simp only [get_piper_voice, hc, hp, hl, Except.ok.injEq] at h
        simp [get_piper_voice, hc, hp, hl, List.lookup_cons, h]
  · simp only [get_piper_voice, hc, Except.ok.injEq] at h
    subst h
    simp [get_piper_voice, hc]

theorem get_preserves_lookup {V : Type} (load : String → Except String V)
    (cache : Cache V) (lk k : String) (v : V)
    (h : cache.lookup k = some v) :
    (get_piper_voice load cache lk).cache.lookup k = some v := by
  rcases hc : List.lookup (normKey lk) cache with _ | v2
  · rcases hp : List.lookup (normKey lk) PIPER_MODELS with _ | mp
    · simpa [get_piper_voice, hc, hp] using h
    · rcases hl : load mp with e | w
      · simpa [get_piper_voice, hc, hp, hl] using h
      · have hne : (k == normKey lk) = false := by
          rw [beq_eq_false_iff_ne]
          intro he
          rw [he, hc] at h
          exact Option.noConfusion h
        simp [get_piper_voice, hc, hp, hl, List.lookup_cons, hne, h]
  · simpa [get_piper_voice, hc] using h

theorem get_loads_spec {V : Type} (load : String → Except String V)
    (cache : Cache V) (lk : String) :
    (get_piper_voice load cache lk).loads = [] ∨
    ((get_piper_voice load cache lk).loads = [normKey lk] ∧
      cache.lookup (normKey lk) = none) := by
  rcases hc : List.lookup (normKey lk) cache with _ | v
  · rcases hp : List.lookup (normKey lk) PIPER_MODELS with _ | mp
    · left
      simp [get_piper_voice, hc, hp]
    · rcases hl : load mp with e | w
      · right
        exact ⟨by simp [get_piper_voice, hc, hp, hl], rfl⟩
      · right
        exact ⟨by simp [get_piper_voice, hc, hp, hl], rfl⟩
  · left
    simp [get_piper_voice, hc]

theorem lookup_none_not_mem {V : Type} (cache : Cache V) (k : String)
    (h : List.lookup k cache = none) : k ∉ cache.map Prod.fst := by
  induction cache with
  | nil => simp
  | cons p cache ih =>
    rcases p with ⟨a, b⟩
    rw [List.lookup_cons] at h
    rcases hb : (k == a) with _ | _
    · rw [hb] at h
      simp only [List.map_cons, List.mem_cons]
      rintro (he | he)
      · rw [beq_eq_false_iff_ne] at hb
        exact hb he
      · exact ih h he
    · rw [hb] at h
      exact Option.noConfusion h

theorem get_preserves_nodup {V : Type} (load : String → Except String V)
    (cache : Cache V) (lk : String)
    (h : (cache.map Prod.fst).Nodup) :
    ((get_piper_voice load cache lk).cache.map Prod.fst).Nodup := by
  rcases hc : List.lookup (normKey lk) cache with _ | v
  · rcases hp : List.lookup (normKey lk) PIPER_MODELS with _ | mp
    · simpa [get_piper_voice, hc, hp] using h
    · rcases hl : load mp with e | w
      · simpa [get_piper_voice, hc, hp, hl] using h
      · simp only [get_piper_voice, hc, hp, hl, List.map_cons, List.nodup_cons]
        exact ⟨lookup_none_not_mem cache _ hc, h⟩
  · simpa [get_piper_voice, hc] using h

theorem runGets_no_load_of_cached {V : Type} (load : String → Except String V)
    (k : String) (v : V) :
    ∀ (lks : List String) (cache : Cache V) (c : Cache V) (ls : List String),
      cache.lookup k = some v →
      runGets load cache lks = Except.ok (c, ls) → k ∉ ls := by
  intro lks
  induction lks with
  | nil =>
    intro cache c ls hv hrun
    simp [runGets] at hrun
    rw [hrun.2]
    simp
  | cons lk lks ih =>
    intro cache c ls hv hrun
    simp only [runGets] at hrun
    rcases hres : (get_piper_voice load cache lk).result with e | w
    · rw [hres] at hrun
      simp at hrun
    · rw [hres] at hrun
      rcases hrec : runGets load (get_piper_voice load cache lk).cache lks with e2 | p
      · rw [hrec] at hrun
        simp at hrun
      · rw [hrec] at hrun
        simp only [Except.ok.injEq, Prod.mk.injEq] at hrun
        intro hmem
        rw [← hrun.2, List.mem_append] at hmem
        rcases hmem with hm | hm
        · rcases get_loads_spec load cache lk with hl | ⟨hl, hnone⟩
          · rw [hl] at hm
            simp at hm
          · rw [hl] at hm
            simp at hm
            rw [← hm] at hnone
            rw [hv] at hnone
            exact Option.noConfusion hnone
        · exact ih _ p.1 p.2 (get_preserves_lookup load cache lk k v hv)
            (by rw [hrec]) hm

theorem runGets_load_once {V : Type} (load : String → Except String V)
    (key : String) :
    ∀ (lks : List String) (cache : Cache V) (c : Cache V) (ls : List String),
      runGets load cache lks = Except.ok (c, ls) → ls.count key ≤ 1 := by
  intro lks
  induction lks with
  | nil =>
    intro cache c ls hrun
    simp [runGets] at hrun
    rw [hrun.2]
    simp
  | cons lk lks ih =>
    intro cache c ls hrun
    simp only [runGets] at hrun
    rcases hres : (get_piper_voice load cache lk).result with e | w
    · rw [hres] at hrun
      simp at hrun
    · rw [hres] at hrun
      rcases hrec : runGets load (get_piper_voice load cache lk).cache lks with e2 | p
      · rw [hrec] at hrun
        simp at hrun
      · rw [hrec] at hrun
        simp only [Except.ok.injEq, Prod.mk.injEq] at hrun
        rw [← hrun.2, List.count_append]
        rcases get_loads_spec load cache lk with hl | ⟨hl, _⟩
        · rw [hl]
          simpa using ih _ p.1 p.2 (by rw [hrec])
        · rw [hl]
          by_cases hk : normKey lk = key

          · have hcached := get_ok_lookup load cache lk w hres
            rw [hk] at hcached
            have hnot := runGets_no_load_of_cached load key w lks _ p.1 p.2 hcached
              (by rw [hrec])
            have h0 : p.2.count key = 0 := List.count_eq_zero.mpr hnot
            have h1 : List.count key [normKey lk] = 1 := by
              simp [List.count_singleton, hk]
            omega
          · have h1 : List.count key [normKey lk] = 0 := by
              simp [List.count_singleton, hk]
            rw [h1]
            simpa using ih _ p.1 p.2 (by rw [hrec])

theorem runGets_nodup {V : Type} (load : String → Except String V) :
    ∀ (lks : List String) (cache : Cache V) (c : Cache V) (ls : List String),
      (cache.map Prod.fst).Nodup →
      runGets load cache lks = Except.ok (c, ls) → (c.map Prod.fst).Nodup := by
  intro lks
  induction lks with
  | nil =>
    intro cache c ls hnd hrun
    simp [runGets] at hrun
    rw [← hrun.1]
    exact hnd
  | cons lk lks ih =>
    intro cache c ls hnd hrun
    simp only [runGets] at hrun
    rcases hres : (get_piper_voice load cache lk).result with e | w
    · rw [hres] at hrun
      simp at hrun
    · rw [hres] at hrun
      rcases hrec : runGets load (get_piper_voice load cache lk).cache lks with e2 | p
      · rw [hrec] at hrun
        simp at hrun
      · rw [hrec] at hrun
        simp only [Except.ok.injEq, Prod.mk.injEq] at hrun
        rw [← hrun.1]
        exact ih _ p.1 p.2 (get_preserves_nodup load cache lk hnd) (by rw [hrec])

/-- C7: the voice cache memoizes engine construction: after a
successful get, a second get for the same key returns the identical
handle with no model load and an unchanged cache; across any sequence
of sequential gets each key is loaded at most once; and the cache
mapping never holds more than one handle per key. -/
theorem C7_voice_cache_memoization {V : Type} (load : String → Except String V)
    (cache : Cache V) (k : String) (v1 : V)
    (h1 : (get_piper_voice load cache k).result = Except.ok v1) :
    get_piper_voice load (get_piper_voice load cache k).cache k =
      ⟨Except.ok v1, (get_piper_voice load cache k).cache, []⟩ ∧
    (∀ lks c ls, runGets load cache lks = Except.ok (c, ls) →
      ∀ key, ls.count key ≤ 1) ∧
    ((cache.map Prod.fst).Nodup →
      ∀ lks c ls, runGets load cache lks = Except.ok (c, ls) →
        (c.map Prod.fst).Nodup) := by
  refine ⟨get_cached_hit load _ k v1 (get_ok_lookup load cache k v1 h1), ?_, ?_⟩
  · intro lks c ls hrun key
    exact runGets_load_once load key lks cache c ls hrun
  · intro hnd lks c ls hrun
    exact runGets_nodup load lks cache c ls hnd hrun

/-- Witness for C7: a second get for "en" returns the identical cached
handle with no load. -/
theorem C7_voice_cache_memoization_witness :
    get_piper_voice (fun _ => Except.ok 7)
        (get_piper_voice (fun _ => Except.ok 7) ([] : Cache Nat) ("en")).cache ("en") =
      ⟨Except.ok 7, (get_piper_voice (fun _ => Except.ok 7) ([] : Cache Nat) ("en")).cache,
        []⟩ :=
  (C7_voice_cache_memoization (fun _ => Except.ok 7) [] ("en") 7 rfl).1

/-- C8: when voice construction fails the error propagates, the cache
is unchanged — no entry and no negative marker is stored for the key —
and a subsequent get for the same key retries the model load. -/
theorem C8_load_failure {V : Type} (load : String → Except String V)
    (cache : Cache V) (k : String) (e : String)
    (h : (get_piper_voice load cache k).result = Except.error e) :
    (get_piper_voice load cache k).cache = cache ∧
    cache.lookup (normKey k) = none ∧
    (∀ load2 : String → Except String V,
      (get_piper_voice load2 cache k).loads = [normKey k]) := by
  rcases hc : List.lookup (normKey k) cache with _ | v
  · rcases hp : List.lookup (normKey k) PIPER_MODELS with _ | mp
    · have hsome := normKey_isSome k
      rw [hp] at hsome
      simp at hsome
    · refine ⟨?_, rfl, ?_⟩
      · rcases hl : load mp with e2 | w
        · simp [get_piper_voice, hc, hp, hl]
        · simp [get_piper_voice, hc, hp, hl] at h
      · intro load2
        rcases hl2 : load2 mp with e2 | w2
        · simp [get_piper_voice, hc, hp, hl2]
        · simp [get_piper_voice, hc, hp, hl2]
  · simp [get_piper_voice, hc] at h

/-- Witness for C8: a failing load for "en" leaves the empty cache
empty. -/
theorem C8_load_failure_witness :
    (get_piper_voice (fun _ => (Except.error ("boom") : Except String Nat))
      [] ("en")).cache = [] :=
  (C8_load_failure (fun _ => Except.error ("boom")) [] ("en") ("boom") rfl).1

/-- C9: a key outside the configured synthesis languages is replaced
by the configured default key before lookup, so the model-table lookup
always succeeds and get behaves exactly as for the default key. -/
theorem C9_default_substitution {V : Type} (load : String → Except String V)
    (cache : Cache V) (k : String) (h : PIPER_MODELS.lookup k = none) :
    normKey k = DEFAULT_LANG ∧
    get_piper_voice load cache k = get_piper_voice load cache DEFAULT_LANG ∧
    (PIPER_MODELS.lookup (normKey k)).isSome = true := by
  have hn : normKey k = DEFAULT_LANG := by
    simp [normKey, h]
  refine ⟨hn, ?_, normKey_isSome k⟩
  have hd : normKey DEFAULT_LANG = DEFAULT_LANG := by decide
  simp only [get_piper_voice, hn, hd]

/-- Witness for C9: the unconfigured key "xx" behaves as the default
key. -/
theorem C9_default_substitution_witness :
    get_piper_voice (fun _ => Except.ok 7) ([] : Cache Nat) ("xx") =
      get_piper_voice (fun _ => Except.ok 7) ([] : Cache Nat) DEFAULT_LANG :=
  (C9_default_substitution (fun _ => Except.ok 7) [] ("xx") (by decide)).2.1

end Backend
